import Mathlib

/-!
Verification of the ComfyUI Discord bot (bot5.py) against its
natural-language specification.

The embedding below models the image-generation pipeline of bot5.py:
the slash commands img and i2i patch a JSON job graph, open a WebSocket,
send the graph, and call get_images, which POSTs the job to the HTTP
submission endpoint, waits on the WebSocket stream for the completion
event, and then fetches the produced images from the history endpoint.

Modelling conventions:
  - JSON wire payloads are modelled as decoded JSON values (the Json
    type below); json.dumps followed by json.loads is the identity on
    this representation, so request bodies and text frames carry Json
    values rather than byte strings.  Python floats are modelled as
    exact rationals.
  - Python exceptions are modelled with Except PyErr: KeyError for a
    missing dictionary key, TypeError for subscripting a non-object,
    NameError for reading an unbound local variable.  The PyErr type
    also carries the error taxonomy of the specification (section 7),
    e.g. historyNotFound, so that claims about that taxonomy can be
    stated; the code itself never produces those constructors.
  - External I/O is modelled by oracles bundled in a World: the parsed
    response of POST /prompt, the list of WebSocket frames the server
    will deliver, the parsed response of GET /history, and a pure
    function giving the bytes served by GET /view.
  - Side effects are recorded as an event trace (List Event) so that
    temporal claims about the order of operations can be stated.
-/

namespace ComfyBot

/-- Decoded JSON values, as produced by json.loads.  Numbers are exact
rationals (standing in for Python ints and floats). -/
inductive Json where
  | null
  | bool (b : Bool)
  | num (q : Rat)
  | str (s : String)
  | arr (xs : List Json)
  | obj (fields : List (String × Json))

/-- First binding of a key in a JSON object field list.  Python dicts
decoded from JSON have distinct keys, so first-match agrees with dict
lookup. -/
def lookupField : List (String × Json) → String → Option Json
  | [], _ => none
  | (k', v) :: t, k => if k' = k then some v else lookupField t k

/-- Python exceptions and, in addition, the error taxonomy named by the
specification (section 7).  The code in bot5.py only ever produces the
first four constructors. -/
inductive PyErr where
  | keyError (k : String)
  | typeError
  | nameError (v : String)
  | connectionClosed
  | historyNotFound
  | imageFetchError

/-- Subscripting j[k] on a decoded JSON value: KeyError when the key is
absent from an object, TypeError when j is not an object. -/
def jGet (j : Json) (k : String) : Except PyErr Json :=
  match j with
  | .obj fs =>
    match lookupField fs k with
    | some v => .ok v
    | none => .error (.keyError k)
  | _ => .error .typeError

/-- Python membership test k in j for an object (False on non-objects;
the code only applies it to history node outputs, which are objects). -/
def Json.hasKey (j : Json) (k : String) : Bool :=
  match j with
  | .obj fs => (lookupField fs k).isSome
  | _ => false

/-- The hard-coded backend address of bot5.py. -/
def server_address : String := "192.168.8.219:8188"

/-- The WebSocket URL built by the img/i2i handlers; the identifier is
carried by the query parameter named clientId. -/
def wsUri (cid : String) : String :=
  "ws://" ++ server_address ++ "/ws?clientId=" ++ cid

/-- The HTTP submission endpoint used by queue_prompt. -/
def promptUrl : String := "http://" ++ server_address ++ "/prompt"

/-- One image byte buffer. -/
def Bytes : Type := List Nat

/-- The output_images mapping of get_images: node-id to the list of
byte buffers fetched for that node. -/
def Dict : Type := String → Option (List Bytes)

/-- The empty output_images dictionary. -/
def emptyDict : Dict := fun _ => none

/-- Python dict item assignment d[k] = v. -/
def updateDict (d : Dict) (k : String) (v : List Bytes) : Dict :=
  fun k' => if k' = k then some v else d k'

/-- A WebSocket frame: textual frames carry their decoded JSON value,
binary frames carry preview bytes. -/
inductive Frame where
  | text (j : Json)
  | binary (bs : List Nat)

/-- Observable side effects of one command invocation, in order. -/
inductive Event where
  | openWS (uri : String)
  | wsSendFrame (j : Json)
  | httpPost (url : String) (body : Json)
  | wsRecvFrame (f : Frame)
  | httpGetHistory (pid : String)
  | httpGetView (fn sf ty : Json)

/-- The responses of the external services for one invocation. -/
structure World where
  submitResp : Json
  frames : List Frame
  histResp : Json
  view : Json → Json → Json → Bytes

/-- One textual frame of the get_images receive loop (bot5.py lines
326-331): decide whether the loop breaks.  Mirrors the Python accesses:
message[ "type" ] may raise, the data accesses only happen for type
executing, and data[ "prompt_id" ] is only read when the node is null
(short-circuit of the Python and). -/
def execStep (pid : String) (j : Json) : Except PyErr Bool :=
  match jGet j "type" with
  | .error e => .error e
  | .ok t =>
    match t with
    | .str s =>
      if s = "executing" then
        match jGet j "data" with
        | .error e => .error e
        | .ok d =>
          match jGet d "node" with
          | .error e => .error e
          | .ok node =>
            match node with
            | .null =>
              match jGet d "prompt_id" with
              | .error e => .error e
              | .ok q =>
                .ok (match q with
                     | .str qs => qs == pid
                     | _ => false)
            | _ => .ok false
      else .ok false
    | _ => .ok false

/-- The while-True receive loop of get_images (bot5.py lines 324-333).
Returns the trace of received frames and the number of frames consumed
until the break; an exhausted frame list models a stream that never
delivers the completion event (the Python loop would block forever or
die with the connection; no frame is consumed beyond the break). -/
def recvLoop (pid : String) : List Frame → List Event × Except PyErr Nat
  | [] => ([], .error .connectionClosed)
  | .binary bs :: fs =>
    (Event.wsRecvFrame (.binary bs) :: (recvLoop pid fs).1,
     (recvLoop pid fs).2.map (· + 1))
  | .text j :: fs =>
    match execStep pid j with
    | .error e => ([Event.wsRecvFrame (.text j)], .error e)
    | .ok true => ([Event.wsRecvFrame (.text j)], .ok 1)
    | .ok false =>
      (Event.wsRecvFrame (.text j) :: (recvLoop pid fs).1,
       (recvLoop pid fs).2.map (· + 1))

/-- The JSON payload of the completion event for a given job id. -/
def termJson (pid : String) : Json :=
  .obj [("type", .str "executing"),
        ("data", .obj [("node", .null), ("prompt_id", .str pid)])]

/-- The terminating frame of the stream for a given job id. -/
def terminatingFrame (pid : String) : Frame := .text (termJson pid)

/-- Frames that the receive loop must ignore: binary preview frames,
textual frames of another event type, executing events for a non-null
node, and executing events for a different job id. -/
inductive IsDecoy (pid : String) : Frame → Prop where
  | binary (bs : List Nat) : IsDecoy pid (.binary bs)
  | otherType (j t : Json) :
      jGet j "type" = .ok t →
      (∀ s, t = .str s → s ≠ "executing") →
      IsDecoy pid (.text j)
  | nonNullNode (j d n : Json) :
      jGet j "type" = .ok (.str "executing") →
      jGet j "data" = .ok d →
      jGet d "node" = .ok n →
      n ≠ .null →
      IsDecoy pid (.text j)
  | otherPrompt (j d q : Json) :
      jGet j "type" = .ok (.str "executing") →
      jGet j "data" = .ok d →
      jGet d "node" = .ok .null →
      jGet d "prompt_id" = .ok q →
      (∀ s, q = .str s → s ≠ pid) →
      IsDecoy pid (.text j)

/-- One GET /view request (bot5.py get_image, lines 311-315): the view
oracle gives the bytes the server would return. -/
def get_image (view : Json → Json → Json → Bytes) (fn sf ty : Json) :
    List Event × Bytes :=
  ([Event.httpGetView fn sf ty], view fn sf ty)

/-- The loop for image in node_output[ "images" ] of get_images (bot5.py
lines 341-343): fetch every listed image in order. -/
def fetchImages (view : Json → Json → Json → Bytes) :
    List Json → List Event × Except PyErr (List Bytes)
  | [] => ([], .ok [])
  | im :: rest =>
    match jGet im "filename" with
    | .error e => ([], .error e)
    | .ok fn =>
      match jGet im "subfolder" with
      | .error e => ([], .error e)
      | .ok sf =>
        match jGet im "type" with
        | .error e => ([], .error e)
        | .ok ty =>
          ((get_image view fn sf ty).1 ++ (fetchImages view rest).1,
           (fetchImages view rest).2.map
             (fun bs => (get_image view fn sf ty).2 :: bs))

/-- One traversal of the inner loop for node_id in history[ "outputs" ]
of get_images (bot5.py lines 337-344).  The state is the current value
of the local variable images_output (none while still unbound) and the
output_images dictionary.  Faithful to the source indentation: the
assignment output_images[node_id] = images_output sits outside the
if-block, so a node without an images key is assigned the current
images_output — a NameError if no node with images came before it. -/
def innerPass (view : Json → Json → Json → Bytes) :
    Option (List Bytes) → Dict → List (String × Json) →
    List Event × Except PyErr (Option (List Bytes) × Dict)
  | st, d, [] => ([], .ok (st, d))
  | st, d, (nid, nout) :: rest =>
    if nout.hasKey "images" then
      match jGet nout "images" with
      | .ok (.arr imgs) =>
        match (fetchImages view imgs).2 with
        | .error e => ((fetchImages view imgs).1, .error e)
        | .ok bs =>
          ((fetchImages view imgs).1
             ++ (innerPass view (some bs) (updateDict d nid bs) rest).1,
           (innerPass view (some bs) (updateDict d nid bs) rest).2)
      | .ok _ => ([], .error .typeError)
      | .error e => ([], .error e)
    else
      match st with
      | none => ([], .error (.nameError "images_output"))
      | some v => innerPass view st (updateDict d nid v) rest

/-- The redundant outer loop for o in history[ "outputs" ] (bot5.py line
336): the inner traversal is repeated once per key of the outputs
mapping. -/
def passes (view : Json → Json → Json → Bytes)
    (outputs : List (String × Json)) :
    Nat → Option (List Bytes) → Dict →
    List Event × Except PyErr (Option (List Bytes) × Dict)
  | 0, st, d => ([], .ok (st, d))
  | n + 1, st, d =>
    match (innerPass view st d outputs).2 with
    | .error e => ((innerPass view st d outputs).1, .error e)
    | .ok p =>
      ((innerPass view st d outputs).1 ++ (passes view outputs n p.1 p.2).1,
       (passes view outputs n p.1 p.2).2)

/-- The doubly-nested loop of get_images over the outputs mapping
(bot5.py lines 336-344), exactly as written in the source: the outer
loop runs once per key, each run repeating the full inner traversal. -/
def outputsLoop (view : Json → Json → Json → Bytes)
    (outputs : List (String × Json)) : List Event × Except PyErr Dict :=
  ((passes view outputs outputs.length none emptyDict).1,
   (passes view outputs outputs.length none emptyDict).2.map (fun p => p.2))

/-- Modelled from the spec (section 9): the same traversal with the
redundant outer loop removed — a single iteration over the outputs
mapping, as the spec tells implementers to write it. -/
def outputsLoopSingle (view : Json → Json → Json → Bytes)
    (outputs : List (String × Json)) : List Event × Except PyErr Dict :=
  ((innerPass view none emptyDict outputs).1,
   (innerPass view none emptyDict outputs).2.map (fun p => p.2))

/-- The sequence of node-id/value assignments one inner traversal makes
to output_images, separated from the dictionary it writes into (proof
device for the outer-loop redundancy argument). -/
def passVals (view : Json → Json → Json → Bytes) :
    Option (List Bytes) → List (String × Json) →
    Except PyErr (Option (List Bytes) × List (String × List Bytes))
  | st, [] => .ok (st, [])
  | st, (nid, nout) :: rest =>
    if nout.hasKey "images" then
      match jGet nout "images" with
      | .ok (.arr imgs) =>
        match (fetchImages view imgs).2 with
        | .error e => .error e
        | .ok bs =>
          (passVals view (some bs) rest).map (fun p => (p.1, (nid, bs) :: p.2))
      | .ok _ => .error .typeError
      | .error e => .error e
    else
      match st with
      | none => .error (.nameError "images_output")
      | some v =>
        (passVals view st rest).map (fun p => (p.1, (nid, v) :: p.2))

/-- Apply a sequence of dictionary assignments in order. -/
def applyAll (d : Dict) (as : List (String × List Bytes)) : Dict :=
  as.foldl (fun dd p => updateDict dd p.1 p.2) d

/-- The value of the last assignment to a given key in an assignment
sequence, if any. -/
def lastVal : List (String × List Bytes) → String → Option (List Bytes)
  | [], _ => none
  | (k', v) :: t, k =>
    match lastVal t k with
    | some w => some w
    | none => if k = k' then some v else none

/-- The body {prompt: jobGraph, client_id: clientIdentity} that
queue_prompt serializes and POSTs (bot5.py line 306). -/
def queuePromptBody (cid : String) (g : Json) : Json :=
  .obj [("prompt", g), ("client_id", .str cid)]

/-- queue_prompt (bot5.py lines 305-309): POST the body to /prompt and
return the parsed response (supplied by the submission oracle). -/
def queue_prompt (cid : String) (g : Json) (resp : Json) :
    List Event × Json :=
  ([Event.httpPost promptUrl (queuePromptBody cid g)], resp)

/-- The submission step as the spec names it: queue_prompt followed by
the prompt_id extraction of bot5.py line 322. -/
def submit (cid : String) (g : Json) (resp : Json) :
    List Event × Except PyErr Json :=
  ((queue_prompt cid g resp).1, jGet (queue_prompt cid g resp).2 "prompt_id")

/-- get_history (bot5.py lines 317-319): GET /history/pid and return
the parsed response (supplied by the history oracle). -/
def get_history (pid : String) (histResp : Json) : List Event × Json :=
  ([Event.httpGetHistory pid], histResp)

/-- The result-fetching step of get_images (bot5.py lines 335-346):
get_history, index the response by the job id, take its outputs object
and run the nested loops. -/
def fetchResults (pid : String) (histResp : Json)
    (view : Json → Json → Json → Bytes) : List Event × Except PyErr Dict :=
  match jGet (get_history pid histResp).2 pid with
  | .error e => ((get_history pid histResp).1, .error e)
  | .ok record =>
    match jGet record "outputs" with
    | .error e => ((get_history pid histResp).1, .error e)
    | .ok (.obj outputs) =>
      ((get_history pid histResp).1 ++ (outputsLoop view outputs).1,
       (outputsLoop view outputs).2)
    | .ok _ => ((get_history pid histResp).1, .error .typeError)

/-- get_images (bot5.py lines 321-346): submit the job over HTTP, run
the receive loop until the completion event, then fetch the results.
The job id is taken from the submission response; per the data model
(spec section 3) job ids are strings, a non-string value is modelled as
a type error. -/
def get_images (cid : String) (g : Json) (w : World) :
    List Event × Except PyErr Dict :=
  match (submit cid g w.submitResp).2 with
  | .error e => ((submit cid g w.submitResp).1, .error e)
  | .ok (.str pid) =>
    match (recvLoop pid w.frames).2 with
    | .error e =>
      ((submit cid g w.submitResp).1 ++ (recvLoop pid w.frames).1, .error e)
    | .ok _ =>
      ((submit cid g w.submitResp).1 ++ (recvLoop pid w.frames).1
         ++ (fetchResults pid w.histResp w.view).1,
       (fetchResults pid w.histResp w.view).2)
  | .ok _ => ((submit cid g w.submitResp).1, .error .typeError)

/-- The WebSocket block shared by the img and i2i handlers (bot5.py
lines 108-114 and 208-214): open the socket, send the job graph as one
text frame, and run get_images. -/
def pipeline (cid : String) (g : Json) (w : World) :
    List Event × Except PyErr Dict :=
  (Event.openWS (wsUri cid) :: Event.wsSendFrame g :: (get_images cid g w).1,
   (get_images cid g w).2)

/-- Replace the first binding of a key in an object field list, or
append it (Python dict item assignment keeps the key position). -/
def setField : List (String × Json) → String → Json → List (String × Json)
  | [], k, v => [(k, v)]
  | (k', w) :: t, k, v =>
    if k' = k then (k, v) :: t else (k', w) :: setField t k v

/-- Python item assignment j[k] = v on a decoded JSON value: TypeError
when j is not an object. -/
def objSet : Json → String → Json → Except PyErr Json
  | .obj fs, k, v => .ok (.obj (setField fs k v))
  | _, _, _ => .error .typeError

/-- The nested template patch prompt[a][b][c] = v used by the handlers:
reads prompt[a] and prompt[a][b] (KeyError/TypeError as in Python),
then rebuilds the graph with the innermost key set. -/
def setIn (j : Json) (a b c : String) (v : Json) : Except PyErr Json :=
  match jGet j a with
  | .error e => .error e
  | .ok n =>
    match jGet n b with
    | .error e => .error e
    | .ok ins =>
      match objSet ins c v with
      | .error e => .error e
      | .ok ins' =>
        match objSet n b ins' with
        | .error e => .error e
        | .ok n' => objSet j a n'

/-- The nested read j[a][b][c]. -/
def jGet3 (j : Json) (a b c : String) : Except PyErr Json :=
  match jGet j a with
  | .error e => .error e
  | .ok n =>
    match jGet n b with
    | .error e => .error e
    | .ok i => jGet i c

/-- The graph patching of the img handler (bot5.py lines 89-96): set
the text of node 6; if both width and height are non-None set them on
node 27, else set 1024 on node 27. -/
def imgPatch (template : Json) (text : String) (width height : Option Int) :
    Except PyErr Json :=
  match setIn template "6" "inputs" "text" (.str text) with
  | .error e => .error e
  | .ok p1 =>
    match width, height with
    | some wv, some hv =>
      match setIn p1 "27" "inputs" "width" (.num (wv : Rat)) with
      | .error e => .error e
      | .ok p2 => setIn p2 "27" "inputs" "height" (.num (hv : Rat))
    | _, _ =>
      match setIn p1 "27" "inputs" "width" (.num 1024) with
      | .error e => .error e
      | .ok p2 => setIn p2 "27" "inputs" "height" (.num 1024)

/-- The branch-free form of the img patch: always write the given
dimensions into node 27 — what the claim says every invocation amounts
to, since the None-check can only take its first branch. -/
def imgPatchForced (template : Json) (text : String) (wv hv : Int) :
    Except PyErr Json :=
  match setIn template "6" "inputs" "text" (.str text) with
  | .error e => .error e
  | .ok p1 =>
    match setIn p1 "27" "inputs" "width" (.num (wv : Rat)) with
    | .error e => .error e
    | .ok p2 => setIn p2 "27" "inputs" "height" (.num (hv : Rat))

/-- The slash-command layer binds an omitted optional integer option to
the declared default, here 1024 (bot5.py line 86), so the parameter the
handler body sees is always an int, never None. -/
def paramBind (arg : Option Int) : Option Int :=
  some (arg.getD 1024)

/-- The process-wide state of the bot: the client identifier generated
once at startup (bot5.py line 24). -/
structure BotProcess where
  clientId : String

/-- The img command handler (bot5.py lines 86-127): patch the template,
then run the WebSocket block with the process client identifier. -/
def imgCommand (p : BotProcess) (template : Json) (text : String)
    (wArg hArg : Option Int) (w : World) : List Event × Except PyErr Dict :=
  match imgPatch template text (paramBind wArg) (paramBind hArg) with
  | .error e => ([], .error e)
  | .ok g => pipeline p.clientId g w

/-- The dimension clamp of the i2i handler (bot5.py lines 173-185).
The Python float aspect = width_org / height_org is modelled as the
exact rational w / h, so aspect > 1 is h < w and the int() truncations
of 1920 / aspect and 1920 * aspect are the natural-number divisions
below (all values are nonnegative). -/
def i2iResize (w h : Nat) : Nat × Nat :=
  if 3686400 < w * h then
    if h < w then (1920, 1920 * h / w)
    else (1920 * w / h, 1920)
  else (w, h)

/-- The graph patching of the i2i handler (bot5.py lines 192-196). -/
def i2iPatch (template : Json) (text b64 : String) (wd ht : Nat)
    (denoise : Rat) : Except PyErr Json :=
  match setIn template "6" "inputs" "text" (.str text) with
  | .error e => .error e
  | .ok p1 =>
    match setIn p1 "53" "inputs" "image" (.str b64) with
    | .error e => .error e
    | .ok p2 =>
      match setIn p2 "51" "inputs" "width" (.num (wd : Rat)) with
      | .error e => .error e
      | .ok p3 =>
        match setIn p3 "51" "inputs" "height" (.num (ht : Rat)) with
        | .error e => .error e
        | .ok p4 => setIn p4 "17" "inputs" "denoise" (.num denoise)

/-- The i2i command handler (bot5.py lines 162-227): clamp the source
dimensions, patch the template, run the WebSocket block with the
process client identifier. -/
def i2iCommand (p : BotProcess) (template : Json) (text b64 : String)
    (origW origH : Nat) (denoise : Rat) (w : World) :
    List Event × Except PyErr Dict :=
  match i2iPatch template text b64 (i2iResize origW origH).1
      (i2iResize origW origH).2 denoise with
  | .error e => ([], .error e)
  | .ok g => pipeline p.clientId g w

/-- Event classifiers. -/
def isOpenWS : Event → Bool
  | .openWS _ => true
  | _ => false

def isWsSend : Event → Bool
  | .wsSendFrame _ => true
  | _ => false

def isHttpPost : Event → Bool
  | .httpPost _ _ => true
  | _ => false

def isWsRecv : Event → Bool
  | .wsRecvFrame _ => true
  | _ => false

def isHistoryGet : Event → Bool
  | .httpGetHistory _ => true
  | _ => false

def isViewGet : Event → Bool
  | .httpGetView _ _ _ => true
  | _ => false

/-- The WebSocket URLs opened during a trace. -/
def wsOpenUris (t : List Event) : List String :=
  t.filterMap fun e =>
    match e with
    | .openWS u => some u
    | _ => none

/-- The contents of the text frames sent during a trace. -/
def wsSentFrames (t : List Event) : List Json :=
  t.filterMap fun e =>
    match e with
    | .wsSendFrame j => some j
    | _ => none

/-- The bodies POSTed during a trace. -/
def postBodies (t : List Event) : List Json :=
  t.filterMap fun e =>
    match e with
    | .httpPost _ b => some b
    | _ => none

/-- The first match of p strictly precedes the first match of q in the
trace. -/
def eventOrdered (t : List Event) (p q : Event → Bool) : Prop :=
  ∀ i j, t.findIdx? p = some i → t.findIdx? q = some j → i < j

/-- Claim C3 as stated: the HTTP submission precedes the WebSocket open
and the job send, which precede the await loop, which precedes the
history fetch. -/
def ClaimC3Order (t : List Event) : Prop :=
  eventOrdered t isHttpPost isOpenWS
  ∧ eventOrdered t isHttpPost isWsSend
  ∧ eventOrdered t isWsSend isWsRecv
  ∧ eventOrdered t isWsRecv isHistoryGet

/-- Concrete image descriptors and a concrete view oracle for the
counterexample and witness inputs. -/
def imgDescA : Json :=
  .obj [("filename", .str "a.png"), ("subfolder", .str ""),
        ("type", .str "output")]

def imgDescB : Json :=
  .obj [("filename", .str "b.png"), ("subfolder", .str ""),
        ("type", .str "output")]

def view0 : Json → Json → Json → Bytes := fun fn _ _ =>
  match fn with
  | .str s => if s = "a.png" then [1] else if s = "b.png" then [2] else [0]
  | _ => [9]

/-- A history outputs mapping whose first node has no images key and
whose second node lists two images. -/
def outsNoImagesFirst : List (String × Json) :=
  [("7", .obj []),
   ("9", .obj [("images", .arr [imgDescA, imgDescB])])]

/-- The same two nodes with the images node first. -/
def outsImagesFirst : List (String × Json) :=
  [("9", .obj [("images", .arr [imgDescA, imgDescB])]),
   ("7", .obj [])]

/-- A small concrete job graph (only node 6 populated). -/
def gEx : Json := .obj [("6", .obj [("inputs", .obj [("text", .str "hi")])])]

/-- A concrete happy-path world: submission returns job id abc, the
stream delivers the completion frame at once, and the history lists one
node with one image. -/
def wEx : World where
  submitResp := .obj [("prompt_id", .str "abc")]
  frames := [terminatingFrame "abc"]
  histResp :=
    .obj [("abc", .obj [("outputs",
      .obj [("9", .obj [("images", .arr [imgDescA])])])])]
  view := view0

/-- A minimal img template: nodes 6 and 27 with empty inputs (item
assignment creates the keys). -/
def tmpl27 : Json :=
  .obj [("6", .obj [("inputs", .obj [])]),
        ("27", .obj [("inputs", .obj [])])]

/-- The graph imgPatch produces from tmpl27 with text t and the default
dimensions. -/
def g27res : Json :=
  .obj [("6", .obj [("inputs", .obj [("text", .str "t")])]),
        ("27", .obj [("inputs",
          .obj [("width", .num ((1024 : Int) : Rat)),
                ("height", .num ((1024 : Int) : Rat))])])]

/-- A minimal i2i template: nodes 6, 53, 51 and 17 with empty inputs. -/
def tmplI2I : Json :=
  .obj [("6", .obj [("inputs", .obj [])]),
        ("53", .obj [("inputs", .obj [])]),
        ("51", .obj [("inputs", .obj [])]),
        ("17", .obj [("inputs", .obj [])])]

theorem applyAll_cons (d : Dict) (k : String) (v : List Bytes)
    (as : List (String × List Bytes)) :
    applyAll d ((k, v) :: as) = applyAll (updateDict d k v) as := rfl

theorem innerPass_eq_passVals (view : Json → Json → Json → Bytes)
    (l : List (String × Json)) :
    ∀ st d, (innerPass view st d l).2
      = (passVals view st l).map (fun p => (p.1, applyAll d p.2)) := by
  induction l with
  | nil => intro st d; rfl
  | cons hd tl ih =>
    intro st d
    obtain ⟨nid, nout⟩ := hd
    by_cases himg : nout.hasKey "images" = true
    · cases hj : jGet nout "images" with
      | error e => simp [innerPass, passVals, himg, hj, Except.map]
      | ok jv =>
        cases jv with
        | arr imgs =>
          cases hf : (fetchImages view imgs).2 with
          | error e => simp [innerPass, passVals, himg, hj, hf, Except.map]
          | ok bs =>
            simp only [innerPass, passVals, himg, hj, hf, if_true]
            rw [ih (some bs) (updateDict d nid bs)]
            cases hpv : passVals view (some bs) tl with
            | error e => simp [Except.map]
            | ok p => simp [Except.map, applyAll_cons]
        | null => simp [innerPass, passVals, himg, hj, Except.map]
        | bool b => simp [innerPass, passVals, himg, hj, Except.map]
        | num q => simp [innerPass, passVals, himg, hj, Except.map]
        | str s => simp [innerPass, passVals, himg, hj, Except.map]
        | obj fs => simp [innerPass, passVals, himg, hj, Except.map]
    · have himg' : nout.hasKey "images" = false := by
        revert himg; cases nout.hasKey "images" <;> simp
      cases st with
      | none => simp [innerPass, passVals, himg', Except.map]
      | some v =>
        simp only [innerPass, passVals, himg', Bool.false_eq_true, if_false]
        rw [ih (some v) (updateDict d nid v)]
        cases hpv : passVals view (some v) tl with
        | error e => simp [Except.map]
        | ok p => simp [Except.map, applyAll_cons]

theorem passVals_st_agnostic (view : Json → Json → Json → Bytes)
    (a : String × Json) (tl : List (String × Json)) (r : Option (List Bytes) × List (String × List Bytes))
    (h : passVals view none (a :: tl) = .ok r) :
    ∀ st, passVals view st (a :: tl) = .ok r := by
  intro st
  obtain ⟨nid, nout⟩ := a
  by_cases himg : nout.hasKey "images" = true
  · rw [← h]
    simp only [passVals, himg, if_true]
  · have himg' : nout.hasKey "images" = false := by
      revert himg; cases nout.hasKey "images" <;> simp
    simp [passVals, himg'] at h

theorem applyAll_lookup (as : List (String × List Bytes)) :
    ∀ (d : Dict) (k : String),
      applyAll d as k
        = match lastVal as k with
          | some w => some w
          | none => d k := by
  induction as with
  | nil => intro d k; simp [applyAll, lastVal]
  | cons p t ih =>
    intro d k
    obtain ⟨k', v⟩ := p
    rw [applyAll_cons, ih]
    cases hl : lastVal t k with
    | some w => simp [lastVal, hl]
    | none =>
      simp only [lastVal, hl]
      by_cases hk : k = k'
      · subst hk; simp [updateDict]
      · simp [updateDict, hk]

theorem applyAll_idem (d : Dict) (as : List (String × List Bytes)) :
    applyAll (applyAll d as) as = applyAll d as := by
  funext k
  rw [applyAll_lookup, applyAll_lookup]
  cases hl : lastVal as k with
  | some w => simp
  | none => simp [applyAll_lookup, hl]

theorem passes_fix (view : Json → Json → Json → Bytes)
    (outputs : List (String × Json)) (st : Option (List Bytes)) (d : Dict)
    (h : (innerPass view st d outputs).2 = .ok (st, d)) :
    ∀ n, (passes view outputs n st d).2 = .ok (st, d) := by
  intro n
  induction n with
  | zero => rfl
  | succ m ih =>
    simp only [passes, h]
    exact ih

/-- C7: the redundant outer loop of get_images over the outputs mapping
computes the same output_images result (value or exception) as a single
traversal of the inner loop; the extra iterations only repeat identical
work. -/
theorem outer_loop_redundant (view : Json → Json → Json → Bytes)
    (outputs : List (String × Json)) :
    (outputsLoop view outputs).2 = (outputsLoopSingle view outputs).2 := by
  cases houts : outputs with
  | nil => rfl
  | cons a tl =>
    simp only [outputsLoop, outputsLoopSingle, List.length_cons]
    cases hip : (innerPass view none emptyDict (a :: tl)).2 with
    | error e => simp [passes, hip]
    | ok p =>
      obtain ⟨st1, d1⟩ := p
      have hf := innerPass_eq_passVals view (a :: tl) none emptyDict
      rw [hip] at hf
      cases hpv : passVals view none (a :: tl) with
      | error e => rw [hpv] at hf; simp [Except.map] at hf
      | ok q =>
        obtain ⟨stv, as⟩ := q
        rw [hpv] at hf
        simp only [Except.map] at hf
        have hpair : (st1, d1) = (stv, applyAll emptyDict as) := Except.ok.inj hf
        have hst : st1 = stv := congrArg Prod.fst hpair
        have hd : d1 = applyAll emptyDict as := congrArg Prod.snd hpair
        subst hst
        have hpv2 : passVals view st1 (a :: tl) = .ok (st1, as) :=
          passVals_st_agnostic view a tl (st1, as) hpv st1
        have hip2 : (innerPass view st1 d1 (a :: tl)).2 = .ok (st1, d1) := by
          rw [innerPass_eq_passVals view (a :: tl) st1 d1, hpv2]
          simp only [Except.map]
          rw [hd, applyAll_idem]
        have hfix := passes_fix view (a :: tl) st1 d1 hip2 tl.length
        simp only [passes, hip, hfix]

theorem recvLoop_all_wsRecv (pid : String) (fs : List Frame) :
    ∀ e ∈ (recvLoop pid fs).1, isWsRecv e = true := by
  induction fs with
  | nil => intro e he; simp [recvLoop] at he
  | cons f tl ih =>
    intro e he
    cases f with
    | binary bs =>
      simp only [recvLoop, List.mem_cons] at he
      rcases he with he | he
      · subst he; rfl
      · exact ih e he
    | text j =>
      cases hst : execStep pid j with
      | error e' =>
        simp only [recvLoop, hst, List.mem_singleton] at he
        subst he; rfl
      | ok b =>
        cases b with
        | true =>
          simp only [recvLoop, hst, List.mem_singleton] at he
          subst he; rfl
        | false =>
          simp only [recvLoop, hst, List.mem_cons] at he
          rcases he with he | he
          · subst he; rfl
          · exact ih e he

theorem fetchImages_all_view (view : Json → Json → Json → Bytes)
    (l : List Json) : ∀ e ∈ (fetchImages view l).1, isViewGet e = true := by
  induction l with
  | nil => intro e he; simp [fetchImages] at he
  | cons im tl ih =>
    intro e he
    simp only [fetchImages] at he
    split at he
    · simp at he
    · split at he
      · simp at he
      · split at he
        · simp at he
        · rw [List.mem_append] at he
          rcases he with he | he
          · simp only [get_image, List.mem_singleton] at he
            subst he; rfl
          · exact ih e he

theorem innerPass_all_view (view : Json → Json → Json → Bytes)
    (l : List (String × Json)) :
    ∀ st d, ∀ e ∈ (innerPass view st d l).1, isViewGet e = true := by
  induction l with
  | nil => intro st d e he; simp [innerPass] at he
  | cons a tl ih =>
    intro st d e he
    obtain ⟨nid, nout⟩ := a
    simp only [innerPass] at he
    split at he
    · split at he
      · split at he
        · exact fetchImages_all_view view _ e he
        · rw [List.mem_append] at he
          rcases he with he | he
          · exact fetchImages_all_view view _ e he
          · exact ih _ _ e he
      · simp at he
      · simp at he
    · split at he
      · simp at he
      · exact ih _ _ e he

theorem passes_all_view (view : Json → Json → Json → Bytes)
    (outputs : List (String × Json)) :
    ∀ n st d, ∀ e ∈ (passes view outputs n st d).1, isViewGet e = true := by
  intro n
  induction n with
  | zero => intro st d e he; simp [passes] at he
  | succ m ih =>
    intro st d e he
    simp only [passes] at he
    split at he
    · exact innerPass_all_view view outputs st d e he
    · rw [List.mem_append] at he
      rcases he with he | he
      · exact innerPass_all_view view outputs st d e he
      · exact ih _ _ e he

theorem fetchResults_trace_shape (pid : String) (histResp : Json)
    (view : Json → Json → Json → Bytes) :
    ∃ r, (fetchResults pid histResp view).1 = Event.httpGetHistory pid :: r
      ∧ ∀ e ∈ r, isViewGet e = true := by
  unfold fetchResults
  split
  · exact ⟨[], rfl, by simp⟩
  · split
    · exact ⟨[], rfl, by simp⟩
    · refine ⟨(outputsLoop view _).1, rfl, ?_⟩
      intro e he
      exact passes_all_view view _ _ _ _ e he
    · exact ⟨[], rfl, by simp⟩

theorem get_images_events (cid : String) (g : Json) (w : World) :
    ∀ e ∈ (get_images cid g w).1,
      isHttpPost e = true ∨ isWsRecv e = true
        ∨ isHistoryGet e = true ∨ isViewGet e = true := by
  intro e he
  have hsub : ∀ x ∈ (submit cid g w.submitResp).1, isHttpPost x = true := by
    intro x hx
    simp only [submit, queue_prompt, List.mem_singleton] at hx
    subst hx; rfl
  revert he
  unfold get_images
  split
  · intro he; exact Or.inl (hsub e he)
  · rename_i pid heq
    split
    · intro he
      rw [List.mem_append] at he
      rcases he with he | he
      · exact Or.inl (hsub e he)
      · exact Or.inr (Or.inl (recvLoop_all_wsRecv _ _ e he))
    · intro he
      rw [List.mem_append, List.mem_append] at he
      rcases he with (he | he) | he
      · exact Or.inl (hsub e he)
      · exact Or.inr (Or.inl (recvLoop_all_wsRecv _ _ e he))
      · obtain ⟨r, hr2, hrall⟩ := fetchResults_trace_shape pid w.histResp w.view
        rw [hr2, List.mem_cons] at he
        rcases he with he | he
        · subst he; exact Or.inr (Or.inr (Or.inl rfl))
        · exact Or.inr (Or.inr (Or.inr (hrall e he)))
  · intro he; exact Or.inl (hsub e he)

theorem execStep_term (pid : String) : execStep pid (termJson pid) = .ok true := by
  simp [execStep, termJson, jGet, lookupField]

theorem execStep_decoy (pid : String) (j : Json) (h : IsDecoy pid (.text j)) :
    execStep pid j = .ok false := by
  cases h with
  | otherType j t ht hne =>
    cases t with
    | str s =>
      have hs : s ≠ "executing" := hne s rfl
      simp [execStep, ht, hs]
    | null => simp [execStep, ht]
    | bool b => simp [execStep, ht]
    | num q => simp [execStep, ht]
    | arr xs => simp [execStep, ht]
    | obj fs => simp [execStep, ht]
  | nonNullNode j d n ht hd hn hne =>
    cases n with
    | null => exact absurd rfl hne
    | str s => simp [execStep, ht, hd, hn]
    | bool b => simp [execStep, ht, hd, hn]
    | num q => simp [execStep, ht, hd, hn]
    | arr xs => simp [execStep, ht, hd, hn]
    | obj fs => simp [execStep, ht, hd, hn]
  | otherPrompt j d q ht hd hn hq hne =>
    cases q with
    | str s =>
      have hsp : s ≠ pid := hne s rfl
      simp [execStep, ht, hd, hn, hq, hsp]
    | null => simp [execStep, ht, hd, hn, hq]
    | bool b => simp [execStep, ht, hd, hn, hq]
    | num q' => simp [execStep, ht, hd, hn, hq]
    | arr xs => simp [execStep, ht, hd, hn, hq]
    | obj fs => simp [execStep, ht, hd, hn, hq]

theorem recvLoop_decoy_step (pid : String) (f : Frame) (h : IsDecoy pid f)
    (fs : List Frame) :
    recvLoop pid (f :: fs) =
      (Event.wsRecvFrame f :: (recvLoop pid fs).1,
       (recvLoop pid fs).2.map (· + 1)) := by
  cases f with
  | binary bs => rfl
  | text j => simp only [recvLoop, execStep_decoy pid j h]

/-- C2: the receive loop of get_images terminates exactly on the
completion frame for the submitted job id, and not before: after N
decoy frames (different job id, non-null node, other event types, or
binary preview frames) followed by the completion frame, it consumes
exactly the N decoys plus the completion frame, never touching later
frames, and binary frames cause neither premature termination nor
decoding errors. -/
theorem awaitCompletion_terminates_exactly (jobId : String)
    (decoys rest : List Frame) (h : ∀ f ∈ decoys, IsDecoy jobId f) :
    (recvLoop jobId (decoys ++ terminatingFrame jobId :: rest)).2
        = .ok (decoys.length + 1)
    ∧ (recvLoop jobId (decoys ++ terminatingFrame jobId :: rest)).1
        = (decoys ++ [terminatingFrame jobId]).map Event.wsRecvFrame := by
  induction decoys with
  | nil =>
    constructor
    · show (recvLoop jobId (terminatingFrame jobId :: rest)).2 = .ok 1
      simp only [terminatingFrame, recvLoop, execStep_term]
    · show (recvLoop jobId (terminatingFrame jobId :: rest)).1 = _
      simp only [terminatingFrame, recvLoop, execStep_term]
      simp
  | cons f ds ih =>
    have hf : IsDecoy jobId f := h f (List.mem_cons_self f ds)
    have hds : ∀ g ∈ ds, IsDecoy jobId g := fun g hg => h g (List.mem_cons_of_mem f hg)
    have step := recvLoop_decoy_step jobId f hf (ds ++ terminatingFrame jobId :: rest)
    rw [List.cons_append, step]
    obtain ⟨ih1, ih2⟩ := ih hds
    constructor
    · simp [ih1, Except.map]
    · simp [ih2]

theorem awaitCompletion_terminates_exactly_witness :
    (∀ f ∈ [Frame.binary [0, 1],
            Frame.text (termJson "xyz"),
            Frame.text (Json.obj [("type", Json.str "progress")]),
            Frame.text (Json.obj [("type", Json.str "executing"),
                                  ("data", Json.obj [("node", Json.str "4")])])],
        IsDecoy "abc" f)
    ∧ (recvLoop "abc"
        ([Frame.binary [0, 1],
          Frame.text (termJson "xyz"),
          Frame.text (Json.obj [("type", Json.str "progress")]),
          Frame.text (Json.obj [("type", Json.str "executing"),
                                ("data", Json.obj [("node", Json.str "4")])])]
          ++ terminatingFrame "abc" :: [Frame.binary [7]])).2 = .ok 5 := by
  have hdec : ∀ f ∈ [Frame.binary [0, 1],
            Frame.text (termJson "xyz"),
            Frame.text (Json.obj [("type", Json.str "progress")]),
            Frame.text (Json.obj [("type", Json.str "executing"),
                                  ("data", Json.obj [("node", Json.str "4")])])],
      IsDecoy "abc" f := by
    intro f hf
    simp only [List.mem_cons, List.not_mem_nil, or_false] at hf
    rcases hf with h1 | h2 | h3 | h4
    · rw [h1]; exact IsDecoy.binary _
    · rw [h2]
      refine IsDecoy.otherPrompt _ (Json.obj [("node", Json.null), ("prompt_id", Json.str "xyz")]) (Json.str "xyz") rfl rfl rfl rfl ?_
      intro s hs hcontra
      cases hs
      exact absurd hcontra (by decide)
    · rw [h3]
      refine IsDecoy.otherType _ (Json.str "progress") rfl ?_
      intro s hs hcontra
      cases hs
      exact absurd hcontra (by decide)
    · rw [h4]
      refine IsDecoy.nonNullNode _ (Json.obj [("node", Json.str "4")]) (Json.str "4") rfl rfl rfl ?_
      intro hcontra
      cases hcontra
  exact ⟨hdec, (awaitCompletion_terminates_exactly "abc" _ _ hdec).1⟩

theorem postBodies_append (s t : List Event) :
    postBodies (s ++ t) = postBodies s ++ postBodies t :=
  List.filterMap_append s t _

theorem postBodies_eq_nil (t : List Event) (h : ∀ e ∈ t, isHttpPost e = false) :
    postBodies t = [] := by
  refine List.filterMap_eq_nil_iff.mpr ?_
  intro e he
  have hf := h e he
  cases e with
  | httpPost u b => simp [isHttpPost] at hf
  | openWS u => rfl
  | wsSendFrame j => rfl
  | wsRecvFrame f => rfl
  | httpGetHistory p => rfl
  | httpGetView a b c => rfl

theorem wsOpenUris_eq_nil (t : List Event) (h : ∀ e ∈ t, isOpenWS e = false) :
    wsOpenUris t = [] := by
  refine List.filterMap_eq_nil_iff.mpr ?_
  intro e he
  have hf := h e he
  cases e with
  | openWS u => simp [isOpenWS] at hf
  | httpPost u b => rfl
  | wsSendFrame j => rfl
  | wsRecvFrame f => rfl
  | httpGetHistory p => rfl
  | httpGetView a b c => rfl

theorem wsSentFrames_eq_nil (t : List Event) (h : ∀ e ∈ t, isWsSend e = false) :
    wsSentFrames t = [] := by
  refine List.filterMap_eq_nil_iff.mpr ?_
  intro e he
  have hf := h e he
  cases e with
  | wsSendFrame j => simp [isWsSend] at hf
  | openWS u => rfl
  | httpPost u b => rfl
  | wsRecvFrame f => rfl
  | httpGetHistory p => rfl
  | httpGetView a b c => rfl

theorem event_kinds_not_ws (e : Event)
    (h : isHttpPost e = true ∨ isWsRecv e = true
      ∨ isHistoryGet e = true ∨ isViewGet e = true) :
    isOpenWS e = false ∧ isWsSend e = false := by
  cases e <;>
    simp_all [isHttpPost, isWsRecv, isHistoryGet, isViewGet, isOpenWS, isWsSend]

theorem wsOpenUris_get_images (cid : String) (g : Json) (w : World) :
    wsOpenUris (get_images cid g w).1 = [] :=
  wsOpenUris_eq_nil _ fun e he =>
    (event_kinds_not_ws e (get_images_events cid g w e he)).1

theorem wsSentFrames_get_images (cid : String) (g : Json) (w : World) :
    wsSentFrames (get_images cid g w).1 = [] :=
  wsSentFrames_eq_nil _ fun e he =>
    (event_kinds_not_ws e (get_images_events cid g w e he)).2

theorem get_images_trace_cases (cid : String) (g : Json) (w : World) :
    (get_images cid g w).1 = (submit cid g w.submitResp).1
    ∨ (∃ pid, (get_images cid g w).1
        = (submit cid g w.submitResp).1 ++ (recvLoop pid w.frames).1)
    ∨ (∃ pid, (get_images cid g w).1
        = (submit cid g w.submitResp).1 ++ (recvLoop pid w.frames).1
            ++ (fetchResults pid w.histResp w.view).1) := by
  unfold get_images
  split
  · exact Or.inl rfl
  · split
    · exact Or.inr (Or.inl ⟨_, rfl⟩)
    · exact Or.inr (Or.inr ⟨_, rfl⟩)
  · exact Or.inl rfl

theorem postBodies_recvLoop (pid : String) (fs : List Frame) :
    postBodies (recvLoop pid fs).1 = [] :=
  postBodies_eq_nil _ fun e he => by
    have hr := recvLoop_all_wsRecv pid fs e he
    cases e <;> simp_all [isWsRecv, isHttpPost]

theorem postBodies_fetchResults (pid : String) (histResp : Json)
    (view : Json → Json → Json → Bytes) :
    postBodies (fetchResults pid histResp view).1 = [] := by
  obtain ⟨r, hr, hall⟩ := fetchResults_trace_shape pid histResp view
  rw [hr]
  have hnil : postBodies r = [] :=
    postBodies_eq_nil _ fun e he => by
      have hv := hall e he
      cases e <;> simp_all [isViewGet, isHttpPost]
  calc postBodies (Event.httpGetHistory pid :: r) = postBodies r := rfl
    _ = [] := hnil

theorem postBodies_get_images (cid : String) (g : Json) (w : World) :
    postBodies (get_images cid g w).1 = [queuePromptBody cid g] := by
  rcases get_images_trace_cases cid g w with hc | ⟨pid, hc⟩ | ⟨pid, hc⟩
  · rw [hc]; rfl
  · rw [hc, postBodies_append, postBodies_recvLoop, List.append_nil]; rfl
  · rw [hc, postBodies_append, postBodies_append, postBodies_recvLoop,
      postBodies_fetchResults, List.append_nil, List.append_nil]
    rfl

theorem wsOpenUris_pipeline (cid : String) (g : Json) (w : World) :
    wsOpenUris (pipeline cid g w).1 = [wsUri cid] := by
  have h1 : wsOpenUris (pipeline cid g w).1
      = wsUri cid :: wsOpenUris (get_images cid g w).1 := rfl
  rw [h1, wsOpenUris_get_images]

theorem postBodies_pipeline (cid : String) (g : Json) (w : World) :
    postBodies (pipeline cid g w).1 = [queuePromptBody cid g] := by
  have h1 : postBodies (pipeline cid g w).1
      = postBodies (get_images cid g w).1 := rfl
  rw [h1, postBodies_get_images]

theorem queuePromptBody_client_id (cid : String) (g : Json) :
    jGet (queuePromptBody cid g) "client_id" = .ok (.str cid) := by
  simp [queuePromptBody, jGet, lookupField]

/-- C3 counterexample: on a concrete happy-path invocation the trace
opens the WebSocket and sends the job before the HTTP submission, so
the order the claim states (submission first) is violated. -/
theorem submission_order_counterexample :
    ¬ ClaimC3Order (pipeline "c0" gEx wEx).1 := by
  intro h
  have h1 := h.1 2 0 (by rfl) (by rfl)
  omega

/-- C3 amended: within one invocation the order is WebSocket open, job
sent over the socket, then the HTTP submission, then the receive loop
(only frame receptions), then the history fetch followed only by image
fetches. -/
theorem pipeline_order_amended (cid : String) (g : Json) (w : World) :
    ∃ recvEvs tail,
      (pipeline cid g w).1
        = Event.openWS (wsUri cid) :: Event.wsSendFrame g
            :: Event.httpPost promptUrl (queuePromptBody cid g)
            :: (recvEvs ++ tail)
      ∧ (∀ e ∈ recvEvs, isWsRecv e = true)
      ∧ (tail = [] ∨ ∃ pid r, tail = Event.httpGetHistory pid :: r
            ∧ ∀ e ∈ r, isViewGet e = true) := by
  have hp : (pipeline cid g w).1
      = Event.openWS (wsUri cid) :: Event.wsSendFrame g
          :: (get_images cid g w).1 := rfl
  rcases get_images_trace_cases cid g w with hc | ⟨pid, hc⟩ | ⟨pid, hc⟩
  · exact ⟨[], [], by rw [hp, hc]; rfl, by simp, Or.inl rfl⟩
  · refine ⟨(recvLoop pid w.frames).1, [], ?_,
      recvLoop_all_wsRecv pid w.frames, Or.inl rfl⟩
    rw [hp, hc, List.append_nil]
    rfl
  · obtain ⟨r, hr, hall⟩ := fetchResults_trace_shape pid w.histResp w.view
    refine ⟨(recvLoop pid w.frames).1, (fetchResults pid w.histResp w.view).1,
      ?_, recvLoop_all_wsRecv pid w.frames, Or.inr ⟨pid, r, hr, hall⟩⟩
    rw [hp, hc, List.append_assoc]
    rfl

theorem pipeline_order_amended_witness :
    ∃ recvEvs tail,
      (pipeline "c0" gEx wEx).1
        = Event.openWS (wsUri "c0") :: Event.wsSendFrame gEx
            :: Event.httpPost promptUrl (queuePromptBody "c0" gEx)
            :: (recvEvs ++ tail)
      ∧ (∀ e ∈ recvEvs, isWsRecv e = true)
      ∧ (tail = [] ∨ ∃ pid r, tail = Event.httpGetHistory pid :: r
            ∧ ∀ e ∈ r, isViewGet e = true) :=
  pipeline_order_amended "c0" gEx wEx

/-- C4 counterexample: the text frame sent over the WebSocket is the
job graph alone, not the object with prompt and client_id fields. -/
theorem ws_frame_content_counterexample :
    wsSentFrames (pipeline "c0" gEx wEx).1 ≠ [queuePromptBody "c0" gEx] := by
  intro h
  have hl : wsSentFrames (pipeline "c0" gEx wEx).1 = [gEx] := rfl
  rw [hl] at h
  simp [gEx, queuePromptBody] at h

/-- C4 amended: the client sends exactly one JSON text frame over the
WebSocket, carrying the job graph alone (the object with prompt and
client_id is the HTTP POST body instead), and the WebSocket URL carries
the identifier under the query parameter named clientId. -/
theorem ws_frame_and_url_amended (cid : String) (g : Json) (w : World) :
    wsSentFrames (pipeline cid g w).1 = [g]
    ∧ postBodies (pipeline cid g w).1 = [queuePromptBody cid g]
    ∧ wsUri cid = "ws://192.168.8.219:8188/ws?clientId=" ++ cid := by
  refine ⟨?_, postBodies_pipeline cid g w, rfl⟩
  have h1 : wsSentFrames (pipeline cid g w).1
      = g :: wsSentFrames (get_images cid g w).1 := rfl
  rw [h1, wsSentFrames_get_images]

/-- C5 amended: a job id absent from the history response makes the
result-fetching step fail with a plain KeyError — the code defines no
HistoryNotFoundError, the blanket handler reports it as an unexpected
error — and no image fetch is attempted (the trace holds only the
history request). -/
theorem history_missing_raises_keyerror (pid : String)
    (entries : List (String × Json)) (view : Json → Json → Json → Bytes)
    (h : lookupField entries pid = none) :
    fetchResults pid (.obj entries) view
      = ([Event.httpGetHistory pid], .error (.keyError pid)) := by
  simp [fetchResults, get_history, jGet, h]

theorem history_missing_raises_keyerror_witness :
    lookupField ([] : List (String × Json)) "zzz" = none
    ∧ fetchResults "zzz" (.obj []) view0
        = ([Event.httpGetHistory "zzz"], .error (.keyError "zzz")) :=
  ⟨rfl, history_missing_raises_keyerror "zzz" [] view0 rfl⟩

/-- C5 counterexample: on a missing job id the result-fetching step
does not fail with the historyNotFound error kind the claim names; it
fails with a KeyError. -/
theorem history_missing_error_kind_counterexample :
    (fetchResults "abc" (.obj []) view0).2 ≠ .error PyErr.historyNotFound := by
  intro h
  have hc : (fetchResults "abc" (.obj []) view0).2
      = .error (.keyError "abc") := rfl
  rw [hc] at h
  simp at h

/-- C1: the claim says nodes without an images key are omitted from the
result; the code instead assigns them the stale images_output value.
With the no-images node first the fetch dies with a NameError; with the
images node first the no-images node 7 is present in the mapping,
carrying a copy of the images of node 9. -/
theorem get_images_images_assignment_slip :
    (outputsLoop view0 outsNoImagesFirst).2
        = .error (.nameError "images_output")
    ∧ (outputsLoop view0 outsImagesFirst).2.map (fun d => (d "9", d "7"))
        = .ok (some [[1], [2]], some [[1], [2]]) := by
  constructor
  · rfl
  · rfl

/-- C6: for any job graph and any submission response carrying a
prompt_id field, submit returns exactly that id, POSTs exactly one body
to the submission endpoint, and that body is the object with the job
graph under prompt and the caller-supplied identifier under client_id. -/
theorem submit_returns_endpoint_prompt_id (cid : String) (g resp pidJ : Json)
    (h : jGet resp "prompt_id" = .ok pidJ) :
    (submit cid g resp).2 = .ok pidJ
    ∧ (submit cid g resp).1
        = [Event.httpPost promptUrl (queuePromptBody cid g)]
    ∧ jGet (queuePromptBody cid g) "client_id" = .ok (.str cid) := by
  refine ⟨?_, rfl, queuePromptBody_client_id cid g⟩
  simpa [submit, queue_prompt] using h

theorem submit_returns_endpoint_prompt_id_witness :
    jGet (.obj [("prompt_id", .str "abc")]) "prompt_id" = .ok (.str "abc")
    ∧ (submit "c0" gEx (.obj [("prompt_id", .str "abc")])).2
        = .ok (.str "abc") :=
  ⟨rfl, (submit_returns_endpoint_prompt_id "c0" gEx
    (.obj [("prompt_id", .str "abc")]) (.str "abc") rfl).1⟩

theorem imgCommand_ok (p : BotProcess) (template : Json) (text : String)
    (wa ha : Option Int) (w : World) (g : Json)
    (h : imgPatch template text (paramBind wa) (paramBind ha) = .ok g) :
    imgCommand p template text wa ha w = pipeline p.clientId g w := by
  unfold imgCommand
  rw [h]

theorem i2iCommand_ok (p : BotProcess) (template : Json) (text b64 : String)
    (ow oh : Nat) (dn : Rat) (w : World) (g : Json)
    (h : i2iPatch template text b64 (i2iResize ow oh).1 (i2iResize ow oh).2 dn
      = .ok g) :
    i2iCommand p template text b64 ow oh dn w = pipeline p.clientId g w := by
  unfold i2iCommand
  rw [h]

/-- C8: every command invocation in a process uses the one client
identifier generated at startup: the img and i2i handlers open their
WebSocket on the URL built from that identifier and POST a submission
body whose client_id field is that identifier, so any two invocations
use equal identifiers. -/
theorem client_identifier_process_wide (p : BotProcess)
    (t1 t2 : Json) (x1 x2 b64 : String) (wa ha : Option Int)
    (ow oh : Nat) (dn : Rat) (w1 w2 : World) (g1 g2 : Json)
    (h1 : imgPatch t1 x1 (paramBind wa) (paramBind ha) = .ok g1)
    (h2 : i2iPatch t2 x2 b64 (i2iResize ow oh).1 (i2iResize ow oh).2 dn
      = .ok g2) :
    wsOpenUris (imgCommand p t1 x1 wa ha w1).1 = [wsUri p.clientId]
    ∧ wsOpenUris (i2iCommand p t2 x2 b64 ow oh dn w2).1 = [wsUri p.clientId]
    ∧ postBodies (imgCommand p t1 x1 wa ha w1).1
        = [queuePromptBody p.clientId g1]
    ∧ postBodies (i2iCommand p t2 x2 b64 ow oh dn w2).1
        = [queuePromptBody p.clientId g2]
    ∧ jGet (queuePromptBody p.clientId g1) "client_id"
        = .ok (.str p.clientId)
    ∧ jGet (queuePromptBody p.clientId g2) "client_id"
        = .ok (.str p.clientId)
    ∧ wsOpenUris (imgCommand p t1 x1 wa ha w1).1
        = wsOpenUris (i2iCommand p t2 x2 b64 ow oh dn w2).1 := by
  rw [imgCommand_ok p t1 x1 wa ha w1 g1 h1,
    i2iCommand_ok p t2 x2 b64 ow oh dn w2 g2 h2]
  refine ⟨wsOpenUris_pipeline _ _ _, wsOpenUris_pipeline _ _ _,
    postBodies_pipeline _ _ _, postBodies_pipeline _ _ _,
    queuePromptBody_client_id _ _, queuePromptBody_client_id _ _, ?_⟩
  rw [wsOpenUris_pipeline, wsOpenUris_pipeline]

theorem client_identifier_process_wide_witness :
    wsOpenUris (imgCommand ⟨"cid0"⟩ tmpl27 "t" none none wEx).1
        = [wsUri "cid0"]
    ∧ wsOpenUris (i2iCommand ⟨"cid0"⟩ tmplI2I "u" "B" 10 10 (7 / 10) wEx).1
        = [wsUri "cid0"] :=
  ⟨(client_identifier_process_wide ⟨"cid0"⟩ tmpl27 tmplI2I "t" "u" "B"
      none none 10 10 (7 / 10) wEx wEx _ _ rfl rfl).1,
   (client_identifier_process_wide ⟨"cid0"⟩ tmpl27 tmplI2I "t" "u" "B"
      none none 10 10 (7 / 10) wEx wEx _ _ rfl rfl).2.1⟩

/-- C9: the i2i dimension clamp: when the source area exceeds 3686400
pixels the submitted dimensions have 1920 as their larger side, an area
of at most 3686400, and are the aspect-preserving truncated scalings;
otherwise the source dimensions pass through unchanged. -/
theorem i2i_resize_bounds (w h : Nat) (hw : 0 < w) (hh : 0 < h) :
    (3686400 < w * h →
      max (i2iResize w h).1 (i2iResize w h).2 = 1920
      ∧ (i2iResize w h).1 * (i2iResize w h).2 ≤ 3686400
      ∧ ((h < w ∧ (i2iResize w h).1 = 1920
            ∧ (i2iResize w h).2 = 1920 * h / w)
         ∨ (w ≤ h ∧ (i2iResize w h).2 = 1920
            ∧ (i2iResize w h).1 = 1920 * w / h)))
    ∧ (w * h ≤ 3686400 → (i2iResize w h).1 = w ∧ (i2iResize w h).2 = h) := by
  constructor
  · intro hbig
    by_cases hcmp : h < w
    · have hres1 : (i2iResize w h).1 = 1920 := by simp [i2iResize, hbig, hcmp]
      have hres2 : (i2iResize w h).2 = 1920 * h / w := by
        simp [i2iResize, hbig, hcmp]
      have hb : 1920 * h / w ≤ 1920 := by
        calc 1920 * h / w ≤ 1920 * w / w :=
              Nat.div_le_div_right (Nat.mul_le_mul_left 1920 (le_of_lt hcmp))
          _ = 1920 := Nat.mul_div_cancel 1920 hw
      refine ⟨?_, ?_, Or.inl ⟨hcmp, hres1, hres2⟩⟩
      · rw [hres1, hres2]; exact Nat.max_eq_left hb
      · rw [hres1, hres2]
        calc 1920 * (1920 * h / w) ≤ 1920 * 1920 := Nat.mul_le_mul_left 1920 hb
          _ = 3686400 := by norm_num
    · have hle : w ≤ h := Nat.le_of_not_lt hcmp
      have hres1 : (i2iResize w h).1 = 1920 * w / h := by
        simp [i2iResize, hbig, hcmp]
      have hres2 : (i2iResize w h).2 = 1920 := by simp [i2iResize, hbig, hcmp]
      have hb : 1920 * w / h ≤ 1920 := by
        calc 1920 * w / h ≤ 1920 * h / h :=
              Nat.div_le_div_right (Nat.mul_le_mul_left 1920 hle)
          _ = 1920 := Nat.mul_div_cancel 1920 hh
      refine ⟨?_, ?_, Or.inr ⟨hle, hres2, hres1⟩⟩
      · rw [hres1, hres2]; exact Nat.max_eq_right hb
      · rw [hres1, hres2]
        calc (1920 * w / h) * 1920 ≤ 1920 * 1920 :=
              Nat.mul_le_mul_right 1920 hb
          _ = 3686400 := by norm_num
  · intro hsmall
    have hnot : ¬ 3686400 < w * h := Nat.not_lt.mpr hsmall
    constructor <;> simp [i2iResize, hnot]

theorem i2i_resize_bounds_witness :
    0 < 3840 ∧ 0 < 2160 ∧ 3686400 < 3840 * 2160
    ∧ max (i2iResize 3840 2160).1 (i2iResize 3840 2160).2 = 1920
    ∧ (i2iResize 3840 2160).1 * (i2iResize 3840 2160).2 ≤ 3686400 :=
  ⟨by decide, by decide, by decide,
   ((i2i_resize_bounds 3840 2160 (by decide) (by decide)).1 (by decide)).1,
   ((i2i_resize_bounds 3840 2160 (by decide) (by decide)).1 (by decide)).2.1⟩

theorem lookupField_setField_same (fs : List (String × Json)) (k : String)
    (v : Json) : lookupField (setField fs k v) k = some v := by
  induction fs with
  | nil => simp [setField, lookupField]
  | cons p t ih =>
    obtain ⟨k', w⟩ := p
    by_cases hk : k' = k
    · subst hk; simp [setField, lookupField]
    · simp [setField, lookupField, hk, ih]

theorem lookupField_setField_other (fs : List (String × Json)) (k : String)
    (v : Json) (c : String) (h : c ≠ k) :
    lookupField (setField fs k v) c = lookupField fs c := by
  induction fs with
  | nil => simp [setField, lookupField, Ne.symm h]
  | cons p t ih =>
    obtain ⟨k', w⟩ := p
    by_cases hk : k' = k
    · subst hk; simp [setField, lookupField, Ne.symm h]
    · simp [setField, lookupField, hk, ih]

theorem jGet_ok_elim (j : Json) (k : String) (x : Json)
    (h : jGet j k = .ok x) :
    ∃ fs, j = .obj fs ∧ lookupField fs k = some x := by
  cases j with
  | obj fs =>
    cases hl : lookupField fs k with
    | none => simp [jGet, hl] at h
    | some v =>
      simp [jGet, hl] at h
      exact ⟨fs, rfl, by rw [hl, h]⟩
  | null => simp [jGet] at h
  | bool b => simp [jGet] at h
  | num q => simp [jGet] at h
  | str s => simp [jGet] at h
  | arr xs => simp [jGet] at h

theorem objSet_ok_elim (j : Json) (k : String) (v r : Json)
    (h : objSet j k v = .ok r) :
    ∃ fs, j = .obj fs ∧ r = .obj (setField fs k v) := by
  cases j with
  | obj fs =>
    simp [objSet] at h
    exact ⟨fs, rfl, h.symm⟩
  | null => simp [objSet] at h
  | bool b => simp [objSet] at h
  | num q => simp [objSet] at h
  | str s => simp [objSet] at h
  | arr xs => simp [objSet] at h

theorem setIn_ok_elim (j : Json) (a b c : String) (v r : Json)
    (h : setIn j a b c v = .ok r) :
    ∃ fs gs hs, j = .obj fs ∧ lookupField fs a = some (.obj gs)
      ∧ lookupField gs b = some (.obj hs)
      ∧ r = .obj (setField fs a
          (.obj (setField gs b (.obj (setField hs c v))))) := by
  unfold setIn at h
  split at h
  · exact Except.noConfusion h
  next n hn =>
    split at h
    · exact Except.noConfusion h
    next ins hins =>
      split at h
      · exact Except.noConfusion h
      next ins2 hins2 =>
        split at h
        · exact Except.noConfusion h
        next n2 hn2 =>
          obtain ⟨fs, hj, hfa⟩ := jGet_ok_elim j a n hn
          obtain ⟨gs, hng, hgb⟩ := jGet_ok_elim n b ins hins
          obtain ⟨hs0, hinso, hio⟩ := objSet_ok_elim ins c v ins2 hins2
          obtain ⟨gs2, hng2, hn2o⟩ := objSet_ok_elim n b ins2 n2 hn2
          obtain ⟨fs2, hj2, hro⟩ := objSet_ok_elim j a n2 r h
          subst hj
          subst hng
          subst hinso
          subst hio
          subst hn2o
          subst hro
          have hfs : fs = fs2 := Json.obj.inj hj2
          have hgs : gs = gs2 := Json.obj.inj hng2
          subst hfs
          subst hgs
          exact ⟨fs, gs, hs0, rfl, hfa, hgb, rfl⟩

theorem setIn_read_same (j : Json) (a b c : String) (v r : Json)
    (h : setIn j a b c v = .ok r) : jGet3 r a b c = .ok v := by
  obtain ⟨fs, gs, hs, hj, hfa, hgb, hr⟩ := setIn_ok_elim j a b c v r h
  subst hr
  simp [jGet3, jGet, lookupField_setField_same]

theorem setIn_read_other (j : Json) (a b c : String) (v r : Json)
    (c' : String) (h : setIn j a b c v = .ok r) (hcc : c' ≠ c) :
    jGet3 r a b c' = jGet3 j a b c' := by
  obtain ⟨fs, gs, hs, hj, hfa, hgb, hr⟩ := setIn_ok_elim j a b c v r h
  subst hr
  subst hj
  simp [jGet3, jGet, lookupField_setField_same,
    lookupField_setField_other _ _ _ _ hcc, hfa, hgb]

/-- C10: the else branch of the img handler that would force 1024x1024
is unreachable: after the slash-command layer binds the declared
defaults, both dimension parameters are always non-None, so the patch
equals its branch-free form and any successfully patched graph carries
the caller-supplied (or default 1024) width and height on node 27. -/
theorem img_dims_else_unreachable (template : Json) (text : String)
    (wArg hArg : Option Int) :
    imgPatch template text (paramBind wArg) (paramBind hArg)
        = imgPatchForced template text (wArg.getD 1024) (hArg.getD 1024)
    ∧ ∀ g, imgPatch template text (paramBind wArg) (paramBind hArg) = .ok g →
        jGet3 g "27" "inputs" "width"
            = .ok (.num ((wArg.getD 1024 : Int) : Rat))
        ∧ jGet3 g "27" "inputs" "height"
            = .ok (.num ((hArg.getD 1024 : Int) : Rat)) := by
  have heq : imgPatch template text (paramBind wArg) (paramBind hArg)
      = imgPatchForced template text (wArg.getD 1024) (hArg.getD 1024) := rfl
  refine ⟨heq, ?_⟩
  intro g hg
  rw [heq] at hg
  unfold imgPatchForced at hg
  split at hg
  · exact Except.noConfusion hg
  next p1 h1 =>
    split at hg
    · exact Except.noConfusion hg
    next p2 h2 =>
      constructor
      · rw [setIn_read_other p2 "27" "inputs" "height" _ g "width" hg
          (by decide)]
        exact setIn_read_same p1 "27" "inputs" "width" _ p2 h2
      · exact setIn_read_same p2 "27" "inputs" "height" _ g hg

theorem img_dims_else_unreachable_witness :
    imgPatch tmpl27 "t" (paramBind none) (paramBind none) = .ok g27res
    ∧ (jGet3 g27res "27" "inputs" "width" = .ok (.num ((1024 : Int) : Rat))
       ∧ jGet3 g27res "27" "inputs" "height"
           = .ok (.num ((1024 : Int) : Rat))) :=
  ⟨rfl, (img_dims_else_unreachable tmpl27 "t" none none).2 g27res rfl⟩

end ComfyBot
